import Mathlib

/-!
# Verification of the ClubExpress SDK courts core

Shallow embedding of the availability-resolution and booking-rule-validation
engine of `src/modules/courts/courts.module.ts`, together with proofs about
the embedded definitions.

Modelling conventions:
* A slot index is a `Nat` (the vendor grid's integer time-slot id).
* Wall-clock instants are measured in whole minutes.  An absolute instant is
  `day * 1440 + timeOfDay` where `day` is a calendar-day number and
  `timeOfDay < 1440` is minutes since local midnight.
* The ISO-string times produced by the resolver are represented by their
  minute-of-day values (the resolver only ever maps slots of one target day).
* JavaScript `Set<number>` built in ascending order and then sorted is
  modelled by a `List Nat`; deletion is `List.filter`.
* Fallible code returns `Except`; the validator's `throw` chain becomes a
  chain of `if`s producing `Except Violation Unit`.
-/

namespace ClubExpress

/-! ## Time-slot codec (`courts.module.ts` lines 184–225)

The source builds `timeSlotMap : Record<number, string>` from a hardcoded
table of seven 90-minute calendar blocks (8:00 AM – 6:30 PM), assigning six
15-minute slots to each block, starting at slot id `gridData.firstTS`. -/

/-- The hardcoded `timeSlots` table of the source (lines 184–192), as
`(hours, minutes, isPM)` of each block's start time string. -/
def templates : List (Nat × Nat × Bool) :=
  [(8, 0, false), (9, 30, false), (11, 0, false), (12, 30, true),
   (2, 0, true), (3, 30, true), (5, 0, true)]

/-- Embedding of `parseTime` (lines 195–208): convert a 12-hour clock reading to minutes
since midnight.  `pm = true` means the string ended in `PM`. -/
def parseTime (h m : Nat) (pm : Bool) : Nat :=
  (if pm ∧ h < 12 then h + 12 else if ¬pm ∧ h = 12 then 0 else h) * 60 + m

/-- The `timeSlots.forEach` loop (lines 211–223): for each template block,
assign six slot ids to times 15 minutes apart, advancing the current slot id
by 6 per block.  Produces the association list of `timeSlotMap`. -/
def buildAux : Nat → List (Nat × Nat × Bool) → List (Nat × Nat)
  | _, [] => []
  | cur, t :: rest =>
      ((List.range 6).map fun i => (cur + i, parseTime t.1 t.2.1 t.2.2 + 15 * i))
        ++ buildAux (cur + 6) rest

/-- Embedding of `timeSlotMap` keyed from `firstTS` (line 211). -/
def buildTimeSlotMap (firstTS : Nat) : List (Nat × Nat) :=
  buildAux firstTS templates

/-- Lookup of `timeSlotMap[slot]`; `none` models an absent key. -/
def timeSlotMap (firstTS slot : Nat) : Option Nat :=
  (buildTimeSlotMap firstTS).lookup slot

/-- Truthiness of `timeSlotMap[slot]` (the guard on line 289). -/
def slotMapped (firstTS slot : Nat) : Bool :=
  (timeSlotMap firstTS slot).isSome

/-! ## Availability resolver (`courts.module.ts` lines 230–331) -/

/-- A resource (court) entry of the vendor grid: open slot range plus the
reserved slot ranges `(firstTS, lastTS)` of its `reservations` array. -/
structure Resource where
  firstAvailableTS : Nat
  lastAvailableTS : Nat
  reservations : List (Nat × Nat)

/-- The `allTimeSlots` set as first built (lines 242–245):
`for (ts = firstAvailableTS; ts <= lastAvailableTS; ts++) add(ts)`.
Ascending by construction; empty when the range is empty. -/
def openSlots (r : Resource) : List Nat :=
  List.range' r.firstAvailableTS (r.lastAvailableTS + 1 - r.firstAvailableTS)

/-- Deleting one reservation's slots (lines 253–255):
`for (ts = firstTS; ts <= lastTS; ts++) allTimeSlots.delete(ts)`. -/
def removeRange (s : List Nat) (rv : Nat × Nat) : List Nat :=
  s.filter fun ts => !(rv.1 ≤ ts && ts ≤ rv.2)

/-- The free-slot set after the `reservations.forEach` loop (lines 250–257). -/
def freeSlots (r : Resource) : List Nat :=
  r.reservations.foldl removeRange (openSlots r)

/-- Embedding of `Array.from(allTimeSlots).sort((a, b) => a - b)` (line 270). -/
def sortedFree (r : Resource) : List Nat :=
  (freeSlots r).insertionSort (· ≤ ·)

/-- The inner window check of lines 277–282: the six slots starting at index
`i` of the sorted array are consecutive
(`sorted[i+j+1] == sorted[i+j] + 1` for `j = 0..4`). -/
def consecutiveAt (a : List Nat) (i : Nat) : Bool :=
  (List.range 5).all fun j => a.getD (i + j + 1) 0 == a.getD (i + j) 0 + 1

/-- The block-scanning loop of lines 273–300 over the sorted free-slot array
`a`.  The loop variable `i` starts at 0 and runs while `i <= a.length - 6`;
on a consecutive window it emits `(a[i], a[i+5])` provided both ends have
`timeSlotMap` entries (`mapped`), then advances `i` by 6 (`i += 5` plus the
loop increment — the advance happens whether or not the map guard passed);
otherwise it advances by 1.  `fuel` bounds the number of iterations; the
loop body runs only while `i + 6 ≤ a.length` and every iteration increases
`i`, so the `a.length` fuel supplied by `findBlocks` never runs out. -/
def findBlocksAux (mapped : Nat → Bool) (a : List Nat) : Nat → Nat → List (Nat × Nat)
  | 0, _ => []
  | fuel + 1, i =>
      if i + 6 ≤ a.length then
        if consecutiveAt a i then
          (if mapped (a.getD i 0) && mapped (a.getD (i + 5) 0)
            then [(a.getD i 0, a.getD (i + 5) 0)] else [])
            ++ findBlocksAux mapped a fuel (i + 6)
        else
          findBlocksAux mapped a fuel (i + 1)
      else []

/-- All `(startSlot, endSlot)` pairs emitted by the scanning loop. -/
def findBlocks (mapped : Nat → Bool) (a : List Nat) : List (Nat × Nat) :=
  findBlocksAux mapped a a.length 0

/-- An emitted `TimeSlot` (`types.ts` lines 48–63); times in minutes. -/
structure TimeSlotM where
  startTime : Nat
  endTime : Nat
  durationMinutes : Nat
deriving DecidableEq

/-- Conversion of an emitted slot pair to a `TimeSlot` (lines 290–294):
start is the mapped time of the start slot, end is the mapped time of the
end slot plus 15 minutes, and the duration field is the literal 90. -/
def toTimeSlot (firstTS : Nat) (b : Nat × Nat) : TimeSlotM :=
  { startTime := (timeSlotMap firstTS b.1).getD 0
    endTime := (timeSlotMap firstTS b.2).getD 0 + 15
    durationMinutes := 90 }

/-- Computation of `availableSlots` for one resource (lines 241–300): scan the sorted free
slots of `r`, keeping only blocks whose two end slots are keys of the
42-entry `timeSlotMap` anchored at `firstTS`. -/
def availableSlots (firstTS : Nat) (r : Resource) : List TimeSlotM :=
  (findBlocks (slotMapped firstTS) (sortedFree r)).map (toTimeSlot firstTS)

/-- The caller-supplied time options of `AvailabilityOptions`
(`types.ts` lines 108–128), in minutes.  `minDurationMinutes` is declared
by the interface (documented "Minimum duration required in minutes"). -/
structure AvailabilityOptionsM where
  startTime : Option Nat
  endTime : Option Nat
  minDurationMinutes : Option Nat

/-- The per-resource slot filtering of lines 304–321: when present,
`startTime` keeps slots with `slot.startTime >= options.startTime` and
`endTime` keeps slots with `slot.endTime <= options.endTime`.  No other
field of the options is consulted there (in particular
`minDurationMinutes` is never read by `findAvailableCourts`). -/
def filterSlots (opts : AvailabilityOptionsM) (slots : List TimeSlotM) : List TimeSlotM :=
  let s1 := match opts.startTime with
    | some t => slots.filter fun sl => t ≤ sl.startTime
    | none => slots
  match opts.endTime with
    | some t => s1.filter fun sl => sl.endTime ≤ t
    | none => s1

/-! ## Booking-rule validator (`courts.module.ts` lines 553–627)

`validateBookingAgainstClubRules` throws `COURTS_BOOKING_RULE_VIOLATION`
with a rule-specific message at the first violated rule; the distinct
messages are modelled by the constructors of `Violation`.  Wall-clock state
is `(today, nowMin)` with `now = today * 1440 + nowMin` and `nowMin < 1440`
(the current moment's calendar day is `today`). -/

/-- The five rule-specific violation messages of the validator, in source
order. -/
inductive Violation where
  | oneBookingPerDay
  | advanceWindowBound
  | advanceWindowOpenTime
  | blockDuration
  | invalidStartTime
deriving DecidableEq

/-- A booking of the member, as used by the validator: only its calendar
date (and, for rule 1's indifference to it, the court) matter. -/
structure BookingRec where
  courtId : Nat
  dateDay : Nat
deriving DecidableEq

/-- A prospective booking (`BookingOptions`, `types.ts` lines 133–168):
court id, calendar day of `date`, and start/end instants in absolute
minutes. -/
structure BookingReq where
  courtId : Nat
  dateDay : Nat
  startAbs : Nat
  endAbs : Nat
deriving DecidableEq

/-- The 9-disjunct valid-start-time test of lines 610–619 on
`(getHours(), getMinutes())` of the requested start. -/
def isValidStartTime (hours minutes : Nat) : Bool :=
  (hours == 8 && minutes == 0) ||
  (hours == 9 && minutes == 30) ||
  (hours == 11 && minutes == 0) ||
  (hours == 12 && minutes == 30) ||
  (hours == 14 && minutes == 0) ||
  (hours == 15 && minutes == 30) ||
  (hours == 17 && minutes == 0) ||
  (hours == 18 && minutes == 30) ||
  (hours == 20 && minutes == 0)

/-- Embedding of `validateBookingAgainstClubRules` (lines 553–627).
* Rule 1 (lines 556–565): `getMyBookings(date, date)` returns the member's
  bookings whose date equals the requested date; fail if any exist.
* Rule 2 (lines 567–577): `maxBookingDate = now + 7 days` (same
  time-of-day); fail if the requested date's midnight is strictly later.
* Rule 2b (lines 580–590): if the requested date is the same calendar day
  as `maxBookingDate` (that is, `today + 7` when `nowMin < 1440`), the code
  sets `bookingOpenTime` to 1:00 PM **of `maxBookingDate`'s own day**
  (`new Date(maxBookingDate); setHours(13, 0, 0, 0)`) and fails when
  `now < bookingOpenTime`.
* Rule 3 (lines 593–603): fail unless `endTime - startTime` is exactly 90
  minutes (JS number subtraction: model with `Int`).
* Rule 3b (lines 605–626): fail unless the start's hours/minutes pass
  `isValidStartTime`. -/
def validateBooking (today nowMin : Nat) (bookings : List BookingRec)
    (req : BookingReq) : Except Violation Unit :=
  let existing := bookings.filter fun b => b.dateDay == req.dateDay
  if existing.length > 0 then .error .oneBookingPerDay
  else
    let now := today * 1440 + nowMin
    let maxBookingDate := now + 7 * 1440
    let bookingDate := req.dateDay * 1440
    if bookingDate > maxBookingDate then .error .advanceWindowBound
    else if req.dateDay == today + 7 && now < (today + 7) * 1440 + 13 * 60 then
      .error .advanceWindowOpenTime
    else if ((req.endAbs : Int) - (req.startAbs : Int)) ≠ 90 then
      .error .blockDuration
    else if !isValidStartTime (req.startAbs / 60 % 24) (req.startAbs % 60) then
      .error .invalidStartTime
    else .ok ()

/-! Rule predicates, stated separately from the validator so that the
short-circuit behaviour can be expressed: `validateBooking` reports rule
`k`'s violation exactly when rule `k` is violated and no earlier rule is. -/

/-- Rule 1 violated: the member already holds a booking dated the requested
day. -/
def rule1Violated (bookings : List BookingRec) (req : BookingReq) : Prop :=
  0 < (bookings.filter fun b => b.dateDay == req.dateDay).length

/-- Rule 2 violated: requested midnight is after `now + 7` days. -/
def rule2Violated (today nowMin : Nat) (req : BookingReq) : Prop :=
  req.dateDay * 1440 > today * 1440 + nowMin + 7 * 1440

/-- Rule 2b violated: requested day is `today + 7` and `now` is before
1:00 PM of day `today + 7` (as the code computes the opening instant). -/
def rule2bViolated (today nowMin : Nat) (req : BookingReq) : Prop :=
  req.dateDay = today + 7 ∧ today * 1440 + nowMin < (today + 7) * 1440 + 13 * 60

/-- Rule 3 violated: duration differs from 90 minutes. -/
def rule3Violated (req : BookingReq) : Prop :=
  ((req.endAbs : Int) - (req.startAbs : Int)) ≠ 90

/-- Rule 3b violated: start time-of-day not among the nine valid starts. -/
def rule3bViolated (req : BookingReq) : Prop :=
  ¬ isValidStartTime (req.startAbs / 60 % 24) (req.startAbs % 60) = true

instance (bs : List BookingRec) (req : BookingReq) :
    Decidable (rule1Violated bs req) := by unfold rule1Violated; infer_instance

instance (t n : Nat) (req : BookingReq) : Decidable (rule2Violated t n req) := by
  unfold rule2Violated; infer_instance

instance (t n : Nat) (req : BookingReq) : Decidable (rule2bViolated t n req) := by
  unfold rule2bViolated; infer_instance

instance (req : BookingReq) : Decidable (rule3Violated req) := by
  unfold rule3Violated; infer_instance

instance (req : BookingReq) : Decidable (rule3bViolated req) := by
  unfold rule3bViolated; infer_instance

/-! ## Codec lemmas: the slot-to-time map is linear on a 42-key window

The seven template blocks start 90 minutes apart from 8:00 AM, and the six
slots of each block are 15 minutes apart, so the built map sends key
`firstTS + j` to minute `480 + 15 * j` for `j = 0 … 41` and has no other
keys. -/

lemma buildTimeSlotMap_eq (f : Nat) :
    buildTimeSlotMap f = (List.range 42).map fun j => (f + j, 480 + 15 * j) := rfl

lemma lookup_linear : ∀ (n f v s : Nat),
    (((List.range n).map fun j => (f + j, v + 15 * j)).lookup s) =
      if f ≤ s ∧ s < f + n then some (v + 15 * (s - f)) else none := by
  intro n
  induction n with
  | zero =>
    intro f v s
    have h : ¬(f ≤ s ∧ s < f) := by omega
    simp [h]
  | succ m ih =>
    intro f v s
    rw [List.range_succ_eq_map]
    simp only [List.map_cons, List.map_map]
    have hmap : ((List.range m).map ((fun j => (f + j, v + 15 * j)) ∘ Nat.succ)) =
        ((List.range m).map fun j => ((f + 1) + j, (v + 15) + 15 * j)) := by
      apply List.map_congr_left
      intro j _
      simp only [Function.comp, Prod.mk.injEq]
      omega
    rw [hmap]
    by_cases hs : s = f + 0
    · have hbeq : (s == f + 0) = true := by simp [hs]
      simp only [List.lookup_cons, hbeq]
      have hcond : f ≤ s ∧ s < f + (m + 1) := by omega
      rw [if_pos hcond]
      simp only [Option.some.injEq]
      omega
    · have hbeq : (s == f + 0) = false := beq_false_of_ne hs
      simp only [List.lookup_cons, hbeq]
      rw [ih]
      split_ifs with h1 h2 h2
      · simp only [Option.some.injEq]; omega
      · omega
      · omega
      · rfl

lemma timeSlotMap_eq (f s : Nat) :
    timeSlotMap f s = if f ≤ s ∧ s ≤ f + 41 then some (480 + 15 * (s - f)) else none := by
  rw [timeSlotMap, buildTimeSlotMap_eq, lookup_linear]
  split_ifs with h1 h2 h2 <;> first | rfl | omega

lemma slotMapped_iff (f s : Nat) : slotMapped f s = true ↔ f ≤ s ∧ s ≤ f + 41 := by
  rw [slotMapped, timeSlotMap_eq]
  split_ifs with h <;> simp [h]

/-! ## Scanning-loop lemmas

General facts about `findBlocksAux`: every emitted pair spans exactly six
consecutive slots with both ends mapped, and the emitted blocks consume at
most the free slots from position `i` on. -/

/-- A run of `n` contiguous slot indices starting at `s` — the shape of a
maximal free run in the sorted free-slot array. -/
def runList (s n : Nat) : List Nat := (List.range n).map fun j => s + j

lemma runList_length (s n : Nat) : (runList s n).length = n := by simp [runList]

lemma runList_getD (s n j : Nat) (h : j < n) : (runList s n).getD j 0 = s + j := by
  simp [runList, List.getD_eq_getElem?_getD, List.getElem?_map, List.getElem?_range, h]

lemma consecutiveAt_run (s n i : Nat) (h : i + 5 < n) : consecutiveAt (runList s n) i = true := by
  simp only [consecutiveAt, List.all_eq_true, List.mem_range]
  intro j hj
  rw [runList_getD s n (i + j + 1) (by omega), runList_getD s n (i + j) (by omega)]
  simp only [beq_iff_eq]
  omega

lemma consecutiveAt_getD (a : List Nat) (i : Nat) (h : consecutiveAt a i = true) :
    a.getD (i + 5) 0 = a.getD i 0 + 5 := by
  simp only [consecutiveAt, List.all_eq_true, List.mem_range, beq_iff_eq] at h
  have key : ∀ j, j ≤ 5 → a.getD (i + j) 0 = a.getD i 0 + j := by
    intro j
    induction j with
    | zero => intro _; simp
    | succ k ihk =>
      intro hk
      have hh := h k (by omega)
      rw [show i + (k + 1) = i + k + 1 from by omega, hh, ihk (by omega)]
      omega
  exact key 5 (by omega)

lemma mem_findBlocksAux (mapped : Nat → Bool) (a : List Nat) :
    ∀ fuel i s e, (s, e) ∈ findBlocksAux mapped a fuel i →
      mapped s = true ∧ mapped e = true ∧ e = s + 5 := by
  intro fuel
  induction fuel with
  | zero => intro i s e h; simp [findBlocksAux] at h
  | succ m ih =>
    intro i s e h
    rw [findBlocksAux] at h
    split_ifs at h with h1 h2 h3
    · rcases List.mem_append.mp h with hl | hr
      · simp only [List.mem_singleton, Prod.mk.injEq] at hl
        obtain ⟨hs, he⟩ := hl
        subst hs; subst he
        simp only [Bool.and_eq_true] at h3
        exact ⟨h3.1, h3.2, consecutiveAt_getD a i h2⟩
      · exact ih (i + 6) s e hr
    · rcases List.mem_append.mp h with hl | hr
      · simp at hl
      · exact ih (i + 6) s e hr
    · exact ih (i + 1) s e h
    · simp at h

lemma findBlocksAux_length_le (mapped : Nat → Bool) (a : List Nat) :
    ∀ fuel i, 6 * (findBlocksAux mapped a fuel i).length ≤ a.length - i := by
  intro fuel
  induction fuel with
  | zero => intro i; simp [findBlocksAux]
  | succ m ih =>
    intro i
    rw [findBlocksAux]
    split_ifs with h1 h2 h3
    · have := ih (i + 6)
      simp only [List.length_append, List.length_cons, List.length_nil]
      omega
    · have := ih (i + 6)
      simp only [List.length_append, List.length_nil]
      omega
    · have := ih (i + 1)
      omega
    · simp

/-! ## Free-slot set lemmas

The `reservations.forEach` deletion loop is a filter by "not inside any
reserved range", and the free-slot list is already ascending, so the
source's numeric sort leaves it unchanged. -/

lemma foldl_removeRange (res : List (Nat × Nat)) : ∀ s : List Nat,
    res.foldl removeRange s =
      s.filter fun ts => !(res.any fun rv => rv.1 ≤ ts && ts ≤ rv.2) := by
  induction res with
  | nil => intro s; simp
  | cons rv rest ih =>
    intro s
    rw [List.foldl_cons, ih, removeRange, List.filter_filter]
    apply List.filter_congr
    intro ts _
    simp only [List.any_cons, Bool.not_or, Bool.and_comm]

lemma freeSlots_eq (r : Resource) :
    freeSlots r = (openSlots r).filter
      fun ts => !(r.reservations.any fun rv => rv.1 ≤ ts && ts ≤ rv.2) :=
  foldl_removeRange r.reservations (openSlots r)

lemma sortedFree_eq (r : Resource) : sortedFree r = freeSlots r := by
  apply List.Sorted.insertionSort_eq
  rw [freeSlots_eq]
  apply List.Pairwise.filter
  apply List.Pairwise.imp (fun {a b} h => le_of_lt h)
  exact List.pairwise_lt_range'  _ _

/-! ## Auxiliary definitions for the claim statements -/

/-- The slots of `openSlots r` that some reservation covers — the reserved
slots that fall inside the open range. -/
def reservedWithin (r : Resource) : List Nat :=
  (openSlots r).filter fun ts => r.reservations.any fun rv => rv.1 ≤ ts && ts ≤ rv.2

/-- The seven block start times of the resolver's calendar template
(minutes since midnight): `parseTime` of each template entry's start. -/
def templateBlockStarts : List Nat :=
  templates.map fun tpl => parseTime tpl.1 tpl.2.1 tpl.2.2

/-! ## Claim theorems -/

/-- C1: the advance-window opening-time gate.  The code computes the 1:00 PM
opening instant on `maxBookingDate`'s own day (`today + 7`), not on today's
date, so a booking for day `today + 7` is rejected with the opening-time
violation even when the current time (here 1:30 PM, minute 810 of day
19877) is already past the 1:00 PM (minute 780) opening time — while every
other rule of the chain holds for this request.  This contradicts the
code's own error message ("Reservations … open at 1:00 PM today") and the
spec, which gate on 1:00 PM of today's date. -/
theorem advance_open_gate_rejects_after_open_time :
    validateBooking 19877 810 []
        ⟨2, 19884, 19884 * 1440 + 480, 19884 * 1440 + 570⟩ =
      .error .advanceWindowOpenTime ∧
    13 * 60 ≤ 810 ∧
    ¬rule1Violated [] ⟨2, 19884, 19884 * 1440 + 480, 19884 * 1440 + 570⟩ ∧
    ¬rule2Violated 19877 810 ⟨2, 19884, 19884 * 1440 + 480, 19884 * 1440 + 570⟩ ∧
    ¬rule3Violated ⟨2, 19884, 19884 * 1440 + 480, 19884 * 1440 + 570⟩ ∧
    ¬rule3bViolated ⟨2, 19884, 19884 * 1440 + 480, 19884 * 1440 + 570⟩ :=
  ⟨rfl, by norm_num, by decide, by decide, by decide, by decide⟩

/-- C2: `findAvailableCourts` applies the `startTime` and `endTime` filters
but never reads `minDurationMinutes`: with only a minimum-duration filter
supplied, the slot list is returned unchanged, whatever the minimum — a
90-minute block survives a 120-minute minimum. -/
theorem minDuration_filter_ignored (d : Option Nat) (slots : List TimeSlotM) :
    filterSlots ⟨none, none, d⟩ slots = slots := rfl

/-- C3 counterexample: the resolver's grouping logic and the validator's
valid-start-time rule do not share one calendar template.  On the grid
anchored at `firstTS = 100` whose open range starts at slot 103 (8:45 AM),
the resolver emits a block starting at minute 525 (8:45), which the
validator rejects; conversely the validator accepts minute 1110 (18:30),
which is not one of the template block starts. -/
theorem template_validator_drift_counterexample :
    (⟨525, 615, 90⟩ : TimeSlotM) ∈ availableSlots 100 ⟨103, 141, []⟩ ∧
    isValidStartTime (525 / 60 % 24) (525 % 60) = false ∧
    isValidStartTime (1110 / 60 % 24) (1110 % 60) = true ∧
    1110 ∉ templateBlockStarts := by decide

/-- C3 amended: every template block start is accepted by the validator,
but the converse fails — the validator additionally accepts 18:30 (1110)
and 20:00 (1200), neither of which is a template block start, and both of
which are later than any minute the resolver's slot-to-time map can
produce (maximum 1095 = 18:15).  The two hardcoded lists are independent
copies that have drifted, as the counterexample's off-template 8:45 block
also shows. -/
theorem template_validator_drift :
    (∀ tpl ∈ templateBlockStarts,
        isValidStartTime (tpl / 60 % 24) (tpl % 60) = true) ∧
    (isValidStartTime (1110 / 60 % 24) (1110 % 60) = true ∧
      1110 ∉ templateBlockStarts) ∧
    (isValidStartTime (1200 / 60 % 24) (1200 % 60) = true ∧
      1200 ∉ templateBlockStarts) ∧
    (∀ f s v, timeSlotMap f s = some v → v ≤ 1095) := by
  refine ⟨by decide, by decide, by decide, ?_⟩
  intro f s v hv
  rw [timeSlotMap_eq] at hv
  split_ifs at hv with h
  simp only [Option.some.injEq] at hv
  omega

/-- Witness for the hypotheses of `template_validator_drift`: template
start 480 (8:00) is validator-accepted, and the map value at key 101 of
the map anchored at 100 is 495 ≤ 1095. -/
theorem template_validator_drift_witness :
    isValidStartTime (480 / 60 % 24) (480 % 60) = true ∧ 495 ≤ 1095 :=
  ⟨template_validator_drift.1 480 (by decide),
   template_validator_drift.2.2.2 100 101 495 (by decide)⟩

/-- C5: the validator evaluates the rules in the fixed source order
one-booking-per-day, advance-window bound, advance-window opening time,
block duration, valid start time; it reports exactly the first violated
rule's violation and succeeds exactly when no rule is violated. -/
theorem validator_first_violation_wins (t n : Nat) (bs : List BookingRec)
    (req : BookingReq) :
    (validateBooking t n bs req = .ok () ↔
      ¬rule1Violated bs req ∧ ¬rule2Violated t n req ∧ ¬rule2bViolated t n req ∧
        ¬rule3Violated req ∧ ¬rule3bViolated req) ∧
    (validateBooking t n bs req = .error .oneBookingPerDay ↔
      rule1Violated bs req) ∧
    (validateBooking t n bs req = .error .advanceWindowBound ↔
      ¬rule1Violated bs req ∧ rule2Violated t n req) ∧
    (validateBooking t n bs req = .error .advanceWindowOpenTime ↔
      ¬rule1Violated bs req ∧ ¬rule2Violated t n req ∧ rule2bViolated t n req) ∧
    (validateBooking t n bs req = .error .blockDuration ↔
      ¬rule1Violated bs req ∧ ¬rule2Violated t n req ∧ ¬rule2bViolated t n req ∧
        rule3Violated req) ∧
    (validateBooking t n bs req = .error .invalidStartTime ↔
      ¬rule1Violated bs req ∧ ¬rule2Violated t n req ∧ ¬rule2bViolated t n req ∧
        ¬rule3Violated req ∧ rule3bViolated req) := by
  simp only [validateBooking]
  unfold rule1Violated rule2Violated rule2bViolated rule3Violated rule3bViolated
  split_ifs with h1 h2 h3 h4 h5 <;> simp_all

/-- C6: if the member already holds any booking dated the requested day —
whatever its court and times — validation fails with the one-booking-per-day
violation. -/
theorem one_booking_per_day_rejects (t n : Nat) (bs : List BookingRec)
    (req : BookingReq) (h : ∃ b ∈ bs, b.dateDay = req.dateDay) :
    validateBooking t n bs req = .error .oneBookingPerDay := by
  obtain ⟨b, hb, hbd⟩ := h
  have hlen : 0 < (bs.filter fun b => b.dateDay == req.dateDay).length := by
    apply List.length_pos.mpr
    apply List.ne_nil_of_mem (a := b)
    apply List.mem_filter.mpr
    exact ⟨hb, by simp [hbd]⟩
  simp only [validateBooking]
  rw [if_pos hlen]

/-- Witness for `one_booking_per_day_rejects`: an existing booking on
court 1 dated day 19884 (2024-06-10) blocks a request on court 2 for the
same day. -/
theorem one_booking_per_day_rejects_witness :
    validateBooking 19877 600 [⟨1, 19884⟩]
        ⟨2, 19884, 19884 * 1440 + 480, 19884 * 1440 + 570⟩ =
      .error .oneBookingPerDay :=
  one_booking_per_day_rejects 19877 600 [⟨1, 19884⟩]
    ⟨2, 19884, 19884 * 1440 + 480, 19884 * 1440 + 570⟩
    ⟨⟨1, 19884⟩, by decide, rfl⟩

/-- C7: interval subtraction over the open-slot set is total and
well-behaved: deleting a reserved range twice equals deleting it once; a
reservation covering the whole open range leaves no free slot and no
available block (and no error); and an arbitrary — possibly partly or
fully out-of-range — reservation removes exactly the slots in the overlap
with the open range. -/
theorem interval_subtraction_safe :
    (∀ (s : List Nat) (rv : Nat × Nat),
        removeRange (removeRange s rv) rv = removeRange s rv) ∧
    (∀ f l fTS : Nat, freeSlots ⟨f, l, [(f, l)]⟩ = [] ∧
        availableSlots fTS ⟨f, l, [(f, l)]⟩ = []) ∧
    (∀ f l a b ts : Nat,
        ts ∈ freeSlots ⟨f, l, [(a, b)]⟩ ↔ (f ≤ ts ∧ ts ≤ l) ∧ ¬(a ≤ ts ∧ ts ≤ b)) := by
  refine ⟨?_, ?_, ?_⟩
  · intro s rv
    simp only [removeRange, List.filter_filter]
    apply List.filter_congr
    intro ts _
    simp [Bool.and_self]
  · intro f l fTS
    have h1 : freeSlots ⟨f, l, [(f, l)]⟩ = [] := by
      rw [freeSlots_eq]
      apply List.filter_eq_nil_iff.mpr
      intro ts hts
      rw [openSlots] at hts
      simp only [List.mem_range'_1] at hts
      simp only [List.any_cons, List.any_nil, Bool.or_false, Bool.not_eq_true,
        Bool.not_eq_false', Bool.and_eq_true, decide_eq_true_eq]
      omega
    refine ⟨h1, ?_⟩
    rw [availableSlots, findBlocks, sortedFree_eq, h1]
    rfl
  · intro f l a b ts
    rw [freeSlots_eq, List.mem_filter]
    simp only [openSlots, List.mem_range'_1, List.any_cons, List.any_nil,
      Bool.or_false, Bool.not_eq_true', Bool.and_eq_false_iff, decide_eq_false_iff_not]
    omega

/-- C8: the slots covered by emitted blocks never exceed the actually free
slots: 6 times the number of emitted blocks is at most the number of open
slots minus the number of reserved slots inside the open range. -/
theorem blocks_le_free_capacity (fTS : Nat) (r : Resource) :
    6 * (availableSlots fTS r).length ≤
      (openSlots r).length - (reservedWithin r).length := by
  have h1 : (availableSlots fTS r).length
      = (findBlocks (slotMapped fTS) (sortedFree r)).length := List.length_map _ _
  have h2 := findBlocksAux_length_le (slotMapped fTS) (sortedFree r)
    (sortedFree r).length 0
  rw [findBlocks] at h1
  have h3 : (sortedFree r).length = (freeSlots r).length := by rw [sortedFree_eq]
  have h4 := List.length_eq_length_filter_add (l := openSlots r)
    (fun ts => r.reservations.any fun rv => rv.1 ≤ ts && ts ≤ rv.2)
  have h5 : (freeSlots r).length
      = ((openSlots r).filter fun ts =>
          !(r.reservations.any fun rv => rv.1 ≤ ts && ts ≤ rv.2)).length := by
    rw [freeSlots_eq]
  have h6 : (reservedWithin r).length
      = ((openSlots r).filter fun ts =>
          r.reservations.any fun rv => rv.1 ≤ ts && ts ≤ rv.2).length := rfl
  omega

/-- C9: every emitted `TimeSlot` spans exactly 90 minutes: its end time is
its start time plus 90 (six 15-minute slots, the end being the last slot's
start plus 15), and its `durationMinutes` field is 90. -/
theorem emitted_block_spans_ninety (fTS : Nat) (r : Resource) (sl : TimeSlotM)
    (hsl : sl ∈ availableSlots fTS r) :
    sl.endTime = sl.startTime + 90 ∧ sl.durationMinutes = 90 := by
  rcases List.mem_map.mp hsl with ⟨⟨s, e⟩, hmem, rfl⟩
  obtain ⟨hs, he, hee⟩ := mem_findBlocksAux _ _ _ _ _ _ hmem
  subst hee
  obtain ⟨hs1, hs2⟩ := (slotMapped_iff fTS s).mp hs
  obtain ⟨he1, he2⟩ := (slotMapped_iff fTS (s + 5)).mp he
  rw [toTimeSlot]
  simp only [timeSlotMap_eq, if_pos (And.intro hs1 hs2), if_pos (And.intro he1 he2),
    Option.getD_some]
  exact ⟨by omega, trivial⟩

/-- Witness for `emitted_block_spans_ninety`: the 8:00–9:30 block of the
spec's end-to-end grid (open 100–141, reservation 106–111). -/
theorem emitted_block_spans_ninety_witness :
    (⟨480, 570, 90⟩ : TimeSlotM) ∈ availableSlots 100 ⟨100, 141, [(106, 111)]⟩ ∧
    (480 : Nat) + 90 = 570 :=
  ⟨by decide,
   by
    have h := emitted_block_spans_ninety 100 ⟨100, 141, [(106, 111)]⟩
      ⟨480, 570, 90⟩ (by decide)
    omega⟩

/-- C10: a block is emitted only when both its end slots are keys of the
42-entry slot-to-time map (window `fTS … fTS + 41`); a contiguous free
6-slot run whose start or end lies outside that window is silently
dropped — no block and no error. -/
theorem blocks_need_map_window :
    (∀ (fTS : Nat) (r : Resource) (s e : Nat),
        (s, e) ∈ findBlocks (slotMapped fTS) (sortedFree r) →
          fTS ≤ s ∧ s ≤ fTS + 41 ∧ fTS ≤ e ∧ e ≤ fTS + 41) ∧
    (∀ fTS s : Nat, ¬(fTS ≤ s ∧ s + 5 ≤ fTS + 41) →
        findBlocks (slotMapped fTS) (runList s 6) = []) := by
  constructor
  · intro fTS r s e hmem
    obtain ⟨hs, he, hee⟩ := mem_findBlocksAux _ _ _ _ _ _ hmem
    obtain ⟨hs1, hs2⟩ := (slotMapped_iff fTS s).mp hs
    obtain ⟨he1, he2⟩ := (slotMapped_iff fTS e).mp he
    exact ⟨hs1, hs2, he1, he2⟩
  · intro fTS s hout
    rw [findBlocks, runList_length]
    rw [findBlocksAux]
    rw [if_pos (by rw [runList_length])]
    rw [if_pos (consecutiveAt_run s 6 0 (by omega))]
    have hmapfalse : (slotMapped fTS ((runList s 6).getD 0 0)
        && slotMapped fTS ((runList s 6).getD (0 + 5) 0)) = false := by
      rw [runList_getD s 6 0 (by omega), runList_getD s 6 (0 + 5) (by omega)]
      rcases not_and_or.mp hout with h | h
      · have hfalse : slotMapped fTS (s + 0) = false := by
          rw [Bool.eq_false_iff]
          intro hc
          have h2 := ((slotMapped_iff fTS (s + 0)).mp hc).1
          omega
        rw [hfalse, Bool.false_and]
      · have hfalse : slotMapped fTS (s + (0 + 5)) = false := by
          rw [Bool.eq_false_iff]
          intro hc
          have h2 := ((slotMapped_iff fTS (s + (0 + 5))).mp hc).2
          omega
        rw [hfalse, Bool.and_false]
    rw [if_neg (by rw [hmapfalse]; exact Bool.false_ne_true)]
    rw [List.nil_append]
    rw [findBlocksAux]
    rw [if_neg (by rw [runList_length]; omega)]

/-- Witness for `blocks_need_map_window`: the first block of the fully
open grid anchored at 100 lies inside the window, and a free 6-run at
slot 200 — far outside the window — yields no block. -/
theorem blocks_need_map_window_witness :
    ((100 : Nat) ≤ 100 ∧ 100 ≤ 100 + 41 ∧ 100 ≤ 105 ∧ 105 ≤ 100 + 41) ∧
    findBlocks (slotMapped 100) (runList 200 6) = [] :=
  ⟨blocks_need_map_window.1 100 ⟨100, 141, []⟩ 100 105 (by decide),
   blocks_need_map_window.2 100 200 (by decide)⟩

end ClubExpress
